import Mathlib

/-!
# Verification of the fuel-tax-credit rates scraper pipeline

Shallow embedding of the extraction–normalization–reconciliation pipeline of
`scrape_sel.py`:

* `clean_rate` models `clean_rate` (split on the space character, `float(...)`);
* `extract_dates` models `extract_dates` (regex search for
  `(\d{1,2} \w+ \d{4}) to (\d{1,2} \w+ \d{4})`, then
  `datetime.strptime(_, '%d %B %Y').strftime('%m/%d/%Y')`, whose `ValueError`
  is not caught);
* `json_to_dataframe` models `json_to_dataframe` (any structural anomaly is
  caught and turned into `none`);
* `buildCanonicalTable` models the road-variant expansion and column
  construction of `main` (lines 136–154);
* `reconcile` / `update_rates_table` model the duplicate detection and
  append-only merge of `update_rates_table` (lines 85–100);
* `runPipeline` models the orchestration tail of `main` (lines 129–165).

Machine floats are modelled by `ℚ` (the rates are small decimal literals),
and pandas `NaN` / `None` cells by `Option`.
-/

set_option autoImplicit false

/-- A calendar date, modelling a `pandas.Timestamp` at day resolution
(the pipeline only ever produces midnight timestamps). -/
structure Date where
  year : Nat
  month : Nat
  day : Nat
deriving DecidableEq, Repr

/-- Error kinds raised (uncaught) inside the pipeline:
`rateError` covers the `ValueError`/`AttributeError` raised at the
`clean_rate` application step, `dateError` the `ValueError` raised by
`datetime.strptime` inside `extract_dates`, and `keyError` the `KeyError`
raised when a rate column is looked up on an empty frame. -/
inductive PipeErr where
  | rateError
  | dateError
  | keyError
deriving DecidableEq, Repr

deriving instance DecidableEq for Except

/-- Digits of a numeral to its value, most significant first. -/
def natOfDigits (ds : List Char) : Nat :=
  ds.foldl (fun n c => 10 * n + (c.toNat - 48)) 0

/-- Exponent suffix of a Python float literal: after the mantissa (held as a
numerator over a power-of-ten denominator), either the string ends or an
exponent `e`/`E`, optional sign and a nonempty digit run consume the rest.
All arithmetic stays in `Int`/`Nat`; the rational is assembled once with
`mkRat`. -/
def pyExpPart (num : Int) (den : Nat) (cs : List Char) : Option ℚ :=
  let core : List Char → Option Nat := fun ds =>
    let (es, r) := ds.span Char.isDigit
    if es.isEmpty then none
    else if r.isEmpty then some (natOfDigits es) else none
  let withExp : Bool → List Char → Option ℚ := fun negExp ds =>
    (core ds).map (fun k =>
      if negExp then mkRat num (den * 10 ^ k) else mkRat (num * (10 : Int) ^ k) den)
  match cs with
  | [] => some (mkRat num den)
  | 'e' :: r =>
    (match r with
     | '-' :: r2 => withExp true r2
     | '+' :: r2 => withExp false r2
     | _ => withExp false r)
  | 'E' :: r =>
    (match r with
     | '-' :: r2 => withExp true r2
     | '+' :: r2 => withExp false r2
     | _ => withExp false r)
  | _ => none

/-- Unsigned part of a Python float literal: `digits`, `digits.digits?` or
`.digits`, followed by an optional exponent. -/
def pyFloatMag (cs : List Char) : Option ℚ :=
  let (ip, r1) := cs.span Char.isDigit
  match r1 with
  | '.' :: r2 =>
    let (fp, r3) := r2.span Char.isDigit
    if ip.isEmpty && fp.isEmpty then none
    else pyExpPart (natOfDigits (ip ++ fp) : Int) (10 ^ fp.length) r3
  | _ => if ip.isEmpty then none else pyExpPart (natOfDigits ip : Int) 1 r1

/-- Model of Python `float(s)` on finite decimal literals: surrounding
whitespace is stripped, then an optional sign and the literal must consume the
whole string.  (The special forms `inf`/`nan` and digit-group underscores do
not occur in this pipeline's data and are not modelled.) -/
def pyFloat? (s : String) : Option ℚ :=
  let cs := (s.toList.dropWhile Char.isWhitespace).reverse
  let cs := (cs.dropWhile Char.isWhitespace).reverse
  match cs with
  | '+' :: rest => pyFloatMag rest
  | '-' :: rest => (pyFloatMag rest).map (fun q => -q)
  | _ => pyFloatMag cs

/-- The prefix of `s` before the first space character: Python
`s.split(' ')[0]`. -/
def firstSpaceToken (s : String) : String :=
  String.mk (s.toList.takeWhile (fun c => c ≠ ' '))

/-- Model of `clean_rate` (line 57–58): `float(rate.split(' ')[0])`, the
`ValueError` of `float` becoming `rateError`. -/
def clean_rate (rate : String) : Except PipeErr ℚ :=
  match pyFloat? (firstSpaceToken rate) with
  | some q => .ok q
  | none => .error .rateError

/-- Applying `clean_rate` to a cell that may be `NaN` (a missing field):
`NaN.split` raises `AttributeError`, also uncaught, modelled as `rateError`. -/
def cleanRateField : Option String → Except PipeErr ℚ
  | some s => clean_rate s
  | none => .error .rateError

/-- Modelled from the spec: the leading token of a string obtained by
splitting at the first whitespace character (the spec's reading of
`cleanRate`; the source splits at the first space character instead). -/
def leadingWsToken (s : String) : String :=
  String.mk (s.toList.takeWhile (fun c => ¬ c.isWhitespace))

/-- `\w` of the Python `re` module, restricted to ASCII data. -/
def isWordChar (c : Char) : Bool :=
  c.isAlpha || c.isDigit || c == '_'

/-- The English month names recognised by `strptime`'s `%B` in the C locale,
lowercased, with their numbers. -/
def monthNames : List (String × Nat) :=
  [("january", 1), ("february", 2), ("march", 3), ("april", 4),
   ("may", 5), ("june", 6), ("july", 7), ("august", 8),
   ("september", 9), ("october", 10), ("november", 11), ("december", 12)]

/-- Gregorian leap year. -/
def isLeap (y : Nat) : Bool :=
  y % 4 == 0 && (y % 100 != 0 || y % 400 == 0)

/-- Days in a month of the proleptic Gregorian calendar (as `datetime`). -/
def daysInMonth (y m : Nat) : Nat :=
  if m == 2 then (if isLeap y then 29 else 28)
  else if m == 4 || m == 6 || m == 9 || m == 11 then 30
  else 31

/-- Lowercase a character list (ASCII). -/
def lowerList (cs : List Char) : List Char :=
  cs.map Char.toLower

/-- Match one of the `%B` month names (case-insensitively) at the head of the
input; no month name is a prefix of another, so the first hit is the only
one.  Returns the month number and the rest of the input. -/
def takeMonth? (cs : List Char) : Option (Nat × List Char) :=
  monthNames.findSome? (fun nm =>
    let l := nm.1.toList
    if lowerList (cs.take l.length) = l then some (nm.2, cs.drop l.length) else none)

/-- Model of `datetime.strptime(s, '%d %B %Y')` followed by the constructor's
range checks: a 1–2 digit day in 1..31, a space, a full English month name
(case-insensitive), a space, exactly four digits, end of string; the day must
exist in that month and the year be at least 1.  Failure is `strptime`'s
`ValueError`. -/
def strptimeDMY (s : String) : Option Date :=
  let cs := s.toList
  let (ds, r1) := cs.span Char.isDigit
  if ds.length = 0 || 2 < ds.length then none
  else
    let d := natOfDigits ds
    if d < 1 || 31 < d then none
    else match r1 with
      | ' ' :: r2 =>
        match takeMonth? r2 with
        | some (m, r3) =>
          (match r3 with
           | ' ' :: r4 =>
             let (ys, r5) := r4.span Char.isDigit
             if ys.length = 4 && r5.isEmpty then
               let y := natOfDigits ys
               if 1 ≤ y && d ≤ daysInMonth y m then some ⟨y, m, d⟩ else none
             else none
           | _ => none)
        | none => none
      | _ => none

/-- Zero-pad a numeral to two digits (`strftime` `%m`, `%d`). -/
def fmt2 (n : Nat) : String :=
  if n < 10 then "0" ++ toString n else toString n

/-- Zero-pad a numeral to four digits (`strftime` `%Y`). -/
def fmt4 (n : Nat) : String :=
  if n < 10 then "000" ++ toString n
  else if n < 100 then "00" ++ toString n
  else if n < 1000 then "0" ++ toString n
  else toString n

/-- `strftime('%m/%d/%Y')`. -/
def formatMDY (d : Date) : String :=
  fmt2 d.month ++ "/" ++ fmt2 d.day ++ "/" ++ fmt4 d.year

/-- `\d{1,2}` followed by a literal space.  The digit run here is maximal:
if it is longer than two, matching two (or one) digits leaves a digit where
the space is required, so the regex fails at this position too. -/
def matchDayTok (cs : List Char) : Option (List Char × List Char) :=
  let (ds, r) := cs.span Char.isDigit
  if 1 ≤ ds.length && ds.length ≤ 2 then
    match r with
    | ' ' :: r2 => some (ds, r2)
    | _ => none
  else none

/-- `\w+` followed by a literal space.  `\w+` is greedy and any shorter match
would leave a word character where the space is required, so the maximal run
is the only candidate. -/
def matchWordTok (cs : List Char) : Option (List Char × List Char) :=
  let (ws, r) := cs.span isWordChar
  if ws.isEmpty then none
  else match r with
    | ' ' :: r2 => some (ws, r2)
    | _ => none

/-- Reassemble a matched group `\d{1,2} \w+ \d{4}`. -/
def mkGroup (d w y : List Char) : String :=
  String.mk (d ++ ' ' :: w ++ ' ' :: y)

/-- Match the full pattern `(\d{1,2} \w+ \d{4}) to (\d{1,2} \w+ \d{4})`
anchored at the head of the input, returning the two captured groups.  The
first year must be a maximal run of exactly four digits (a fifth digit would
sit where the following space is required), while the final year just needs
four digits available, the rest of the input being unconstrained. -/
def matchAt (cs : List Char) : Option (String × String) :=
  match matchDayTok cs with
  | none => none
  | some (d1, r1) =>
    match matchWordTok r1 with
    | none => none
    | some (w1, r2) =>
      let (ys1, r3) := r2.span Char.isDigit
      if ys1.length = 4 then
        match r3 with
        | ' ' :: 't' :: 'o' :: ' ' :: r4 =>
          (match matchDayTok r4 with
           | none => none
           | some (d2, r5) =>
             match matchWordTok r5 with
             | none => none
             | some (w2, r6) =>
               let (ys2, _) := r6.span Char.isDigit
               if 4 ≤ ys2.length then
                 some (mkGroup d1 w1 ys1, mkGroup d2 w2 (ys2.take 4))
               else none)
        | _ => none
      else none

/-- `re.search`: try the pattern at each position, leftmost match wins. -/
def searchDatePat : List Char → Option (String × String)
  | [] => matchAt []
  | c :: rest =>
    match matchAt (c :: rest) with
    | some g => some g
    | none => searchDatePat rest

/-- Model of `extract_dates` (lines 48–55): search the title for the date
pattern; on no match return `(None, None)`; on a match, `strptime` both
groups and reformat them — a group that fails `strptime` raises an uncaught
`ValueError`, modelled as `dateError`. -/
def extract_dates (title : String) : Except PipeErr (Option String × Option String) :=
  match searchDatePat title.toList with
  | none => .ok (none, none)
  | some (g1, g2) =>
    match strptimeDMY g1, strptimeDMY g2 with
    | some d1, some d2 => .ok (some (formatMDY d1), some (formatMDY d2))
    | _, _ => .error .dateError

/-- One entry of a `Data` list of the raw JSON document.  The three fields
the pipeline reads are modelled; a field missing from the JSON mapping shows
up as a `NaN` cell in the `DataFrame`, i.e. `none`.  (Extra fields are
carried into the frame by `row.update(entry)` but dropped again by the final
column selection, so they are not modelled.) -/
structure Entry where
  usedInHeavyVehicles : Option String
  allOtherBusinessUses : Option String
  eligibleFuelType : Option String
deriving DecidableEq, Repr

/-- One period table of the raw JSON document: `table['Period']` and
`table['Data']`, each possibly absent (their lookup raises `KeyError`). -/
structure PeriodTable where
  period : Option String
  data : Option (List Entry)
deriving DecidableEq, Repr

/-- The raw JSON document returned by the scraper: the top-level key
`'Rates for fuel acquired'` may be absent, otherwise it maps table names to
period tables (in iteration order). -/
structure RawTableDocument where
  ratesForFuelAcquired : Option (List (String × PeriodTable))
deriving DecidableEq, Repr

/-- One row of the staging `DataFrame`: the period's `Title` together with
the entry's fields. -/
structure StagingRow where
  title : String
  usedInHeavyVehicles : Option String
  allOtherBusinessUses : Option String
  eligibleFuelType : Option String
deriving DecidableEq, Repr

/-- The staging row built by `row = {'Title': title}; row.update(entry)`. -/
def stagingOfEntry (title : String) (e : Entry) : StagingRow :=
  ⟨title, e.usedInHeavyVehicles, e.allOtherBusinessUses, e.eligibleFuelType⟩

/-- The loop body of `json_to_dataframe`: one row per `Data` entry of each
table, in iteration order.  A missing `Period` or `Data` key raises mid-loop;
the surrounding `except` catches it, so nothing at all is returned. -/
def tablesToRows : List (String × PeriodTable) → Option (List StagingRow)
  | [] => some []
  | (_, t) :: rest =>
    match t.period, t.data with
    | some p, some entries =>
      (match tablesToRows rest with
       | some rows => some (entries.map (stagingOfEntry p) ++ rows)
       | none => none)
    | _, _ => none

/-- Model of `json_to_dataframe` (lines 29–46): `none` both when the
top-level key `'Rates for fuel acquired'` is absent (the raised `KeyError`
is caught and `None` returned) and when any table lacks `Period` or `Data`. -/
def json_to_dataframe (doc : RawTableDocument) : Option (List StagingRow) :=
  match doc.ratesForFuelAcquired with
  | none => none
  | some tables => tablesToRows tables

/-- Total number of `Data` entries of the document. -/
def totalDataEntries (doc : RawTableDocument) : Nat :=
  match doc.ratesForFuelAcquired with
  | none => 0
  | some tables =>
    (tables.map (fun t => match t.2.data with | some es => es.length | none => 0)).sum

/-- The six-entry fuel-type dictionary (lines 60–67). -/
def fuelTypePairs : List (String × String) :=
  [("Liquid fuels (for example, diesel or petrol)", "FT1"),
   ("Blended fuels: B5, B20, E10", "FT2"),
   ("Liquefied petroleum gas (LPG)", "FT3"),
   ("Liquefied natural gas (LNG) or compressed natural gas (CNG)", "FT4"),
   ("Blended fuel: E85", "FT5"),
   ("B100", "FT6")]

/-- `Series.map(fuel_type_mapping)`: exact lookup, anything unmapped (or an
already-`NaN` cell) becomes `NaN`. -/
def fuel_type_mapping (s : Option String) : Option String :=
  s.bind (fun t => fuelTypePairs.lookup t)

/-- A raw date cell as it sits in a spreadsheet / freshly built frame:
a string, an actual date cell, or an empty cell (`None`/`NaN`). -/
inductive DateVal where
  | str (s : String)
  | date (d : Date)
  | null
deriving DecidableEq, Repr

def dateValOfOpt : Option String → DateVal
  | some s => .str s
  | none => .null

/-- One row of the eight-column canonical table, as written to / read from
the spreadsheets (dates not yet normalized). -/
structure RawRow where
  startDate : DateVal
  endDate : DateVal
  fuelType : Option String
  roadType : String
  unit : String
  rate : ℚ
  fuel : Option String
  road : String
deriving DecidableEq, Repr

/-- Elementwise application of a fallible function, the first raised
exception aborting the whole pass — the behaviour of `Series.apply` when the
applied function raises. -/
def mapE {α β : Type} (f : α → Except PipeErr β) : List α → Except PipeErr (List β)
  | [] => .ok []
  | a :: as =>
    match f a with
    | .error e => .error e
    | .ok b =>
      match mapE f as with
      | .error e => .error e
      | .ok bs => .ok (b :: bs)

/-- The data of one row of `df_r1`/`df_r2` that the remaining steps read:
the title, fuel description, road annotations and the cleaned rate. -/
structure PreRow where
  title : String
  eligibleFuelType : Option String
  roadType : String
  road : String
  rate : ℚ
deriving DecidableEq, Repr

/-- One row of a road-variant copy (lines 136–145): the road-type and road
labels are set and the given rate column is cleaned; a rate that fails
`clean_rate` raises. -/
def preRowOf (rt road : String) (field : StagingRow → Option String) (s : StagingRow) :
    Except PipeErr PreRow :=
  match cleanRateField (field s) with
  | .error e => .error e
  | .ok q => .ok ⟨s.title, s.eligibleFuelType, rt, road, q⟩

/-- Lines 148–154 applied to one row of the concatenated frame: extract the
dates from the title (possibly raising), map the fuel type, set the constant
unit, copy the fuel text, and select the eight canonical columns. -/
def canonOfPre (p : PreRow) : Except PipeErr RawRow :=
  match extract_dates p.title with
  | .error e => .error e
  | .ok (sd, ed) =>
    .ok ⟨dateValOfOpt sd, dateValOfOpt ed, fuel_type_mapping p.eligibleFuelType,
         p.roadType, "cents per liter", p.rate, p.eligibleFuelType, p.road⟩

/-- Model of the road-variant expansion and canonical-column construction of
`main` (lines 136–154).  On an empty staging frame the lookup of the column
`'Used in heavy vehicles'` raises `KeyError` (an empty `DataFrame` has no
columns); otherwise the `R1` rates are cleaned first, then the `R2` rates,
then dates/fuel codes are attached to the concatenated frame row by row.
(When the rate column is absent from every row the source raises `KeyError`
where this model raises `rateError` per cell — both abort the run before any
row is emitted.) -/
def buildCanonicalTable (staging : List StagingRow) : Except PipeErr (List RawRow) :=
  if staging.isEmpty then .error .keyError
  else
    match mapE (preRowOf "R1" "On-Road" StagingRow.usedInHeavyVehicles) staging with
    | .error e => .error e
    | .ok h1 =>
      match mapE (preRowOf "R2" "Off-Road" StagingRow.allOtherBusinessUses) staging with
      | .error e => .error e
      | .ok h2 => mapE canonOfPre (h1 ++ h2)

/-- `mm/dd/yyyy` (1–2 digit month and day, 4-digit year) with validity
checks — the format `extract_dates` writes and `pd.to_datetime` reparses. -/
def parseMDY (cs : List Char) : Option Date :=
  let (ms, r1) := cs.span Char.isDigit
  if ms.length = 0 || 2 < ms.length then none
  else match r1 with
    | '/' :: r2 =>
      let (ds, r3) := r2.span Char.isDigit
      if ds.length = 0 || 2 < ds.length then none
      else match r3 with
        | '/' :: r4 =>
          let (ys, r5) := r4.span Char.isDigit
          if ys.length = 4 && r5.isEmpty then
            let m := natOfDigits ms
            let d := natOfDigits ds
            let y := natOfDigits ys
            if 1 ≤ m && m ≤ 12 && 1 ≤ d && d ≤ daysInMonth y m && 1 ≤ y then
              some ⟨y, m, d⟩
            else none
          else none
        | _ => none
    | _ => none

/-- ISO `yyyy-mm-dd` with validity checks. -/
def parseISO (cs : List Char) : Option Date :=
  let (ys, r1) := cs.span Char.isDigit
  if ys.length ≠ 4 then none
  else match r1 with
    | '-' :: r2 =>
      let (ms, r3) := r2.span Char.isDigit
      if ms.length = 0 || 2 < ms.length then none
      else match r3 with
        | '-' :: r4 =>
          let (ds, r5) := r4.span Char.isDigit
          if (ds.length = 0 || 2 < ds.length) || !r5.isEmpty then none
          else
            let y := natOfDigits ys
            let m := natOfDigits ms
            let d := natOfDigits ds
            if 1 ≤ m && m ≤ 12 && 1 ≤ d && d ≤ daysInMonth y m && 1 ≤ y then
              some ⟨y, m, d⟩
            else none
        | _ => none
    | _ => none

/-- String-date parsing of `pd.to_datetime(_, errors='coerce')`, restricted
to the two formats this pipeline produces and stores (`mm/dd/yyyy` written
by `extract_dates`, and ISO `yyyy-mm-dd`); any other string coerces to
`NaT`, i.e. `none`. -/
def parsePandasDate (s : String) : Option Date :=
  match parseMDY s.toList with
  | some d => some d
  | none => parseISO s.toList

/-- `pd.to_datetime(cell, errors='coerce')` on one cell: date cells pass
through, empty cells and unparseable strings become `NaT` (`none`). -/
def toDatetime : DateVal → Option Date
  | .null => none
  | .date d => some d
  | .str s => parsePandasDate s

/-- A canonical row after both date columns have been normalized by
`pd.to_datetime` (lines 85–88): the full eight-column tuple that the
duplicate check compares. -/
structure NormRow where
  startDate : Option Date
  endDate : Option Date
  fuelType : Option String
  roadType : String
  unit : String
  rate : ℚ
  fuel : Option String
  road : String
deriving DecidableEq, Repr

/-- Normalize the two date columns of a row, keeping the other six columns. -/
def normRow (r : RawRow) : NormRow :=
  ⟨toDatetime r.startDate, toDatetime r.endDate, r.fuelType, r.roadType,
   r.unit, r.rate, r.fuel, r.road⟩

/-- The duplicate detection and merge at the heart of `update_rates_table`
(lines 85–99): normalize the dates of both frames, keep the staging rows
whose full row tuple occurs nowhere in the historical frame
(`~update_df.apply(tuple, axis=1).isin(ftc_df.apply(tuple, axis=1))`), and
concatenate the historical frame with those new entries. -/
def reconcile (update ftc : List RawRow) : List NormRow × List NormRow :=
  let u := update.map normRow
  let f := ftc.map normRow
  let newEntries := u.filter (fun r => decide (¬ r ∈ f))
  (newEntries, f ++ newEntries)

/-- Writing a normalized row back to the spreadsheet and reading it again:
timestamps round-trip as date cells, `NaT` as empty cells, the other columns
unchanged. -/
def serializeRow (n : NormRow) : RawRow :=
  ⟨(match n.startDate with | some d => .date d | none => .null),
   (match n.endDate with | some d => .date d | none => .null),
   n.fuelType, n.roadType, n.unit, n.rate, n.fuel, n.road⟩

/-- Model of `update_rates_table` (lines 69–100) acting on the two file
contents: if no new entries are found it only prints `"No updates at the
moment"` and the historical file is left exactly as it was; otherwise the
merged table is written back and the other message printed.  Returns the
printed message and the resulting historical file contents. -/
def update_rates_table (update ftcFile : List RawRow) : String × List RawRow :=
  let p := reconcile update ftcFile
  if p.1.isEmpty then ("No updates at the moment", ftcFile)
  else ("New entries appended to FTC Rates.xlsx", p.2.map serializeRow)

/-- The orchestration tail of `main` (lines 129–165), given the scraped
document and the historical file contents: if `json_to_dataframe` returns
`None`, `main` returns at once; if the canonical-table construction raises,
the uncaught exception likewise ends the run; only otherwise (with a
nonempty frame) is `update_rates_table` invoked on the freshly written
staging file.  Returns whether reconciliation was invoked and the final
historical file contents. -/
def runPipeline (doc : RawTableDocument) (histFile : List RawRow) : Bool × List RawRow :=
  match json_to_dataframe doc with
  | none => (false, histFile)
  | some staging =>
    match buildCanonicalTable staging with
    | .error _ => (false, histFile)
    | .ok out =>
      if staging.isEmpty then (false, histFile)
      else (true, (update_rates_table out histFile).2)

/-- Modelled from the spec: two rows are the same record iff all eight
canonical fields agree, with `StartDate`/`EndDate` compared as normalized
calendar dates rather than string literals. -/
def tupleMatch (a b : RawRow) : Prop :=
  toDatetime a.startDate = toDatetime b.startDate ∧
  toDatetime a.endDate = toDatetime b.endDate ∧
  a.fuelType = b.fuelType ∧ a.roadType = b.roadType ∧ a.unit = b.unit ∧
  a.rate = b.rate ∧ a.fuel = b.fuel ∧ a.road = b.road

instance (a b : RawRow) : Decidable (tupleMatch a b) := by
  unfold tupleMatch; infer_instance

/-- Modelled from the spec: the title pattern
`"<day> <month-name> <year> to <day> <month-name> <year>"` with English
month names — the regex shape together with both halves being well-formed
English-month dates. -/
def claimTitlePattern (title : String) : Bool :=
  match searchDatePat title.toList with
  | none => false
  | some (g1, g2) => (strptimeDMY g1).isSome && (strptimeDMY g2).isSome

/-- The staging row of a road variant, together with the final columns built
from it: what one output row of `buildCanonicalTable` owes to its staging
row. -/
def builtFrom (rt road : String) (field : StagingRow → Option String)
    (s : StagingRow) (r : RawRow) : Prop :=
  r.roadType = rt ∧ r.road = road ∧ r.unit = "cents per liter" ∧
  r.fuelType = fuel_type_mapping s.eligibleFuelType ∧ r.fuel = s.eligibleFuelType ∧
  cleanRateField (field s) = .ok r.rate ∧
  ∃ sd ed, extract_dates s.title = .ok (sd, ed) ∧
    r.startDate = dateValOfOpt sd ∧ r.endDate = dateValOfOpt ed

lemma tupleMatch_iff (a b : RawRow) : tupleMatch a b ↔ normRow a = normRow b := by
  simp [tupleMatch, normRow, NormRow.mk.injEq]

lemma getAppendLeft {α : Type} (l1 l2 : List α) (i : Nat) (h : i < l1.length)
    (h' : i < (l1 ++ l2).length) : (l1 ++ l2).get ⟨i, h'⟩ = l1.get ⟨i, h⟩ := by
  simp only [List.get_eq_getElem]
  exact List.getElem_append_left h

lemma getAppendRight {α : Type} (l1 l2 : List α) (i : Nat) (h : i < l2.length)
    (h' : l1.length + i < (l1 ++ l2).length) :
    (l1 ++ l2).get ⟨l1.length + i, h'⟩ = l2.get ⟨i, h⟩ := by
  simp [List.getElem_append_right, Nat.add_sub_cancel_left]

lemma mapE_ok_forall₂ {α β : Type} {f : α → Except PipeErr β} :
    ∀ {l : List α} {ys : List β}, mapE f l = .ok ys →
      List.Forall₂ (fun a b => f a = .ok b) l ys := by
  intro l
  induction l with
  | nil =>
    intro ys h
    simp only [mapE] at h
    cases h
    exact List.Forall₂.nil
  | cons a as ih =>
    intro ys h
    simp only [mapE] at h
    cases hf : f a with
    | error e => rw [hf] at h; cases h
    | ok b =>
      rw [hf] at h
      cases hm : mapE f as with
      | error e => rw [hm] at h; cases h
      | ok bs =>
        rw [hm] at h
        cases h
        exact List.Forall₂.cons hf (ih hm)

lemma mapE_append_ok {α β : Type} {f : α → Except PipeErr β} :
    ∀ {l1 l2 : List α} {ys : List β}, mapE f (l1 ++ l2) = .ok ys →
      ∃ y1 y2, ys = y1 ++ y2 ∧ mapE f l1 = .ok y1 ∧ mapE f l2 = .ok y2 := by
  intro l1
  induction l1 with
  | nil => exact fun h => ⟨[], _, rfl, rfl, h⟩
  | cons a as ih =>
    intro l2 ys h
    simp only [List.cons_append, mapE, List.append_eq] at h
    cases hf : f a with
    | error e => rw [hf] at h; cases h
    | ok b =>
      rw [hf] at h
      cases hm : mapE f (as ++ l2) with
      | error e => rw [hm] at h; cases h
      | ok bs =>
        rw [hm] at h
        cases h
        obtain ⟨y1, y2, rfl, h1, h2⟩ := ih hm
        exact ⟨b :: y1, y2, rfl, by simp [mapE, hf, h1], h2⟩

lemma mapE_ok_of_all {α β : Type} {f : α → Except PipeErr β} :
    ∀ l : List α, (∀ x ∈ l, ∃ b, f x = .ok b) → ∃ ys, mapE f l = .ok ys := by
  intro l
  induction l with
  | nil => exact fun _ => ⟨[], rfl⟩
  | cons a as ih =>
    intro h
    obtain ⟨b, hb⟩ := h a (List.mem_cons_self a as)
    obtain ⟨ys, hys⟩ := ih (fun x hx => h x (List.mem_cons_of_mem a hx))
    exact ⟨b :: ys, by simp [mapE, hb, hys]⟩

lemma mapE_rate_err {α β : Type} {f : α → Except PipeErr β}
    (hf : ∀ x, (∃ b, f x = .ok b) ∨ f x = .error .rateError) :
    ∀ l : List α, (∃ x ∈ l, f x = .error .rateError) →
      mapE f l = .error .rateError := by
  intro l
  induction l with
  | nil => rintro ⟨x, hx, _⟩; cases hx
  | cons a as ih =>
    rintro ⟨x, hx, hxe⟩
    simp only [mapE]
    rcases List.mem_cons.mp hx with rfl | hmem
    · rw [hxe]
    · rcases hf a with ⟨b, hb⟩ | hb
      · rw [hb, ih ⟨x, hmem, hxe⟩]
      · rw [hb]

lemma forall₂Comp {α β γ : Type} {R : α → β → Prop} {S : β → γ → Prop} {T : α → γ → Prop}
    (hc : ∀ a b c, R a b → S b c → T a c) :
    ∀ {l1 : List α} {l2 : List β} {l3 : List γ},
      List.Forall₂ R l1 l2 → List.Forall₂ S l2 l3 → List.Forall₂ T l1 l3 := by
  intro l1 l2 l3 h1
  induction h1 generalizing l3 with
  | nil =>
    intro h2
    cases h2
    exact List.Forall₂.nil
  | cons hR _ ih =>
    intro h2
    cases h2 with
    | cons hS htail => exact List.Forall₂.cons (hc _ _ _ hR hS) (ih htail)

lemma forall₂Get {α β : Type} {R : α → β → Prop} :
    ∀ {l1 : List α} {l2 : List β}, List.Forall₂ R l1 l2 →
      ∀ i (h1 : i < l1.length) (h2 : i < l2.length),
        R (l1.get ⟨i, h1⟩) (l2.get ⟨i, h2⟩) := by
  intro l1 l2 h
  induction h with
  | nil => intro i h1 h2; exact absurd h1 (Nat.not_lt_zero i)
  | cons hR htail ih =>
    intro i h1 h2
    cases i with
    | zero => exact hR
    | succ j => exact ih j (Nat.lt_of_succ_lt_succ h1) (Nat.lt_of_succ_lt_succ h2)

lemma normRow_serializeRow (n : NormRow) : normRow (serializeRow n) = n := by
  rcases n with ⟨sd, ed, ft, rt, u, q, fl, rd⟩
  cases sd <;> cases ed <;> rfl

lemma cleanRateField_cases (o : Option String) :
    (∃ q, cleanRateField o = .ok q) ∨ cleanRateField o = .error .rateError := by
  cases o with
  | none => exact Or.inr rfl
  | some s =>
    simp only [cleanRateField, clean_rate]
    cases pyFloat? (firstSpaceToken s) with
    | none => exact Or.inr rfl
    | some q => exact Or.inl ⟨q, rfl⟩

lemma tablesToRows_length :
    ∀ (tables : List (String × PeriodTable)) (rows : List StagingRow),
      tablesToRows tables = some rows →
      rows.length =
        (tables.map (fun t => match t.2.data with | some es => es.length | none => 0)).sum := by
  intro tables
  induction tables with
  | nil =>
    intro rows h
    cases h
    rfl
  | cons t rest ih =>
    intro rows h
    simp only [tablesToRows] at h
    cases hp : t.2.period with
    | none => rw [hp] at h; cases h
    | some p =>
      rw [hp] at h
      cases hd : t.2.data with
      | none => rw [hd] at h; cases h
      | some entries =>
        rw [hd] at h
        cases hr : tablesToRows rest with
        | none => rw [hr] at h; cases h
        | some rows' =>
          rw [hr] at h
          cases h
          simp [hd, ih rows' hr]

lemma json_length (doc : RawTableDocument) (staging : List StagingRow)
    (hs : json_to_dataframe doc = some staging) :
    staging.length = totalDataEntries doc := by
  unfold json_to_dataframe totalDataEntries at *
  cases hk : doc.ratesForFuelAcquired with
  | none => rw [hk] at hs; cases hs
  | some tables =>
    rw [hk] at hs
    exact tablesToRows_length tables staging hs

lemma preRowOf_ok {rt road : String} {field : StagingRow → Option String}
    {s : StagingRow} {p : PreRow} (h : preRowOf rt road field s = .ok p) :
    p.title = s.title ∧ p.eligibleFuelType = s.eligibleFuelType ∧
    p.roadType = rt ∧ p.road = road ∧ cleanRateField (field s) = .ok p.rate := by
  unfold preRowOf at h
  cases hc : cleanRateField (field s) with
  | error e => rw [hc] at h; cases h
  | ok q =>
    rw [hc] at h
    cases h
    exact ⟨rfl, rfl, rfl, rfl, rfl⟩

lemma canonOfPre_ok {p : PreRow} {r : RawRow} (h : canonOfPre p = .ok r) :
    ∃ sd ed, extract_dates p.title = .ok (sd, ed) ∧
      r = ⟨dateValOfOpt sd, dateValOfOpt ed, fuel_type_mapping p.eligibleFuelType,
           p.roadType, "cents per liter", p.rate, p.eligibleFuelType, p.road⟩ := by
  unfold canonOfPre at h
  cases he : extract_dates p.title with
  | error e => rw [he] at h; cases h
  | ok sded =>
    rw [he] at h
    rcases sded with ⟨sd, ed⟩
    cases h
    exact ⟨sd, ed, rfl, rfl⟩

/-- Success shape of `buildCanonicalTable`: the output is the `R1`-annotated
copy of the staging table followed by the `R2`-annotated copy, each in the
staging table's own order. -/
lemma buildCanonicalTable_shape {staging : List StagingRow} {out : List RawRow}
    (hb : buildCanonicalTable staging = .ok out) :
    ∃ o1 o2, out = o1 ++ o2 ∧
      List.Forall₂ (builtFrom "R1" "On-Road" StagingRow.usedInHeavyVehicles) staging o1 ∧
      List.Forall₂ (builtFrom "R2" "Off-Road" StagingRow.allOtherBusinessUses) staging o2 := by
  unfold buildCanonicalTable at hb
  by_cases hemp : staging.isEmpty
  · rw [if_pos hemp] at hb; cases hb
  rw [if_neg hemp] at hb
  cases h1 : mapE (preRowOf "R1" "On-Road" StagingRow.usedInHeavyVehicles) staging with
  | error e => rw [h1] at hb; cases hb
  | ok pre1 =>
    rw [h1] at hb
    cases h2 : mapE (preRowOf "R2" "Off-Road" StagingRow.allOtherBusinessUses) staging with
    | error e => rw [h2] at hb; cases hb
    | ok pre2 =>
      rw [h2] at hb
      obtain ⟨o1, o2, rfl, hc1, hc2⟩ := mapE_append_ok hb
      refine ⟨o1, o2, rfl, ?_, ?_⟩
      · refine forall₂Comp ?_ (mapE_ok_forall₂ h1) (mapE_ok_forall₂ hc1)
        intro s p r hp hr
        obtain ⟨ht, hf, hrt, hrd, hrate⟩ := preRowOf_ok hp
        obtain ⟨sd, ed, hed, rfl⟩ := canonOfPre_ok hr
        rw [ht] at hed
        exact ⟨hrt, hrd, rfl, by rw [hf], by rw [hf], by rw [hrate], sd, ed, hed, rfl, rfl⟩
      · refine forall₂Comp ?_ (mapE_ok_forall₂ h2) (mapE_ok_forall₂ hc2)
        intro s p r hp hr
        obtain ⟨ht, hf, hrt, hrd, hrate⟩ := preRowOf_ok hp
        obtain ⟨sd, ed, hed, rfl⟩ := canonOfPre_ok hr
        rw [ht] at hed
        exact ⟨hrt, hrd, rfl, by rw [hf], by rw [hf], by rw [hrate], sd, ed, hed, rfl, rfl⟩

lemma getAppendRightIdx {α : Type} (l1 l2 : List α) (j i : Nat) (hj : j = l1.length + i)
    (h : i < l2.length) (h' : j < (l1 ++ l2).length) :
    (l1 ++ l2).get ⟨j, h'⟩ = l2.get ⟨i, h⟩ := by
  subst hj
  exact getAppendRight l1 l2 i h h'

lemma preRowOf_err {rt road : String} {field : StagingRow → Option String} {s : StagingRow}
    (h : cleanRateField (field s) = .error .rateError) :
    preRowOf rt road field s = .error .rateError := by
  unfold preRowOf
  rw [h]

lemma preRowOf_cases (rt road : String) (field : StagingRow → Option String) (s : StagingRow) :
    (∃ p, preRowOf rt road field s = .ok p) ∨
    (preRowOf rt road field s = .error .rateError ∧
      cleanRateField (field s) = .error .rateError) := by
  rcases cleanRateField_cases (field s) with ⟨q, hq⟩ | hq
  · exact Or.inl ⟨_, by unfold preRowOf; rw [hq]⟩
  · exact Or.inr ⟨preRowOf_err hq, hq⟩

/-- C1: `reconcile` returns as `newRows` exactly the staging rows whose full
eight-field tuple (dates compared as normalized calendar dates) appears
nowhere in the historical table — those rows with their dates normalized, in
staging's emission order — and returns as `merged` the (date-normalized)
historical table followed by `newRows`, preserving historical row order. -/
theorem reconcile_spec (update ftc : List RawRow) :
    (reconcile update ftc).1 =
      (update.filter (fun r => decide (¬ ∃ h ∈ ftc, tupleMatch r h))).map normRow ∧
    (reconcile update ftc).2 = ftc.map normRow ++ (reconcile update ftc).1 := by
  constructor
  · show (update.map normRow).filter (fun r => decide (¬ r ∈ ftc.map normRow)) = _
    rw [List.filter_map]
    congr 1
    refine List.filter_congr ?_
    intro a _
    show decide (¬ normRow a ∈ ftc.map normRow) = decide (¬ ∃ h ∈ ftc, tupleMatch a h)
    apply decide_eq_decide.mpr
    apply not_congr
    rw [List.mem_map]
    constructor
    · rintro ⟨h, hh, he⟩
      exact ⟨h, hh, (tupleMatch_iff a h).mpr he.symm⟩
    · rintro ⟨h, hh, ht⟩
      exact ⟨h, hh, ((tupleMatch_iff a h).mp ht).symm⟩
  · rfl

/-- The staging rows of the C2 counterexample: a row with parseable rates and
a row whose heavy-vehicle rate is not numeric. -/
def goodStag : StagingRow :=
  ⟨"1 July 2023 to 30 June 2024", some "14.2 cents", some "13.0 cents", some "B100"⟩

def badStag : StagingRow :=
  ⟨"1 July 2023 to 30 June 2024", some "abc", some "13.0 cents", some "B100"⟩

/-- C2 counterexample: the staging table holds one fully parseable row and
one row with a non-numeric heavy-vehicle rate; the whole construction fails,
so the parseable row does not yield its two canonical rows and nothing is
counted or reported — the per-row skip the claim describes does not happen. -/
theorem rateAbort_cex :
    cleanRateField goodStag.usedInHeavyVehicles = .ok (mkRat 71 5) ∧
    cleanRateField badStag.usedInHeavyVehicles = .error .rateError ∧
    buildCanonicalTable [goodStag, badStag] = .error .rateError := by
  decide

/-- C2 amended: a staging row whose rate field is missing or not numeric
makes the rate-cleaning step raise, aborting the entire canonical-table
construction — no row (parseable or not) is emitted and no count of skipped
rows is produced. -/
theorem rateAbort_amend (staging : List StagingRow)
    (hbad : ∃ s ∈ staging,
      cleanRateField s.usedInHeavyVehicles = .error .rateError ∨
      cleanRateField s.allOtherBusinessUses = .error .rateError) :
    buildCanonicalTable staging = .error .rateError := by
  obtain ⟨s0, hs0, hor⟩ := hbad
  have hne : ¬ (staging.isEmpty = true) := by
    cases staging with
    | nil => cases hs0
    | cons a as => simp [List.isEmpty]
  unfold buildCanonicalTable
  rw [if_neg hne]
  have hfR1 : ∀ x, (∃ b, preRowOf "R1" "On-Road" StagingRow.usedInHeavyVehicles x = .ok b) ∨
      preRowOf "R1" "On-Road" StagingRow.usedInHeavyVehicles x = .error .rateError :=
    fun x => (preRowOf_cases _ _ _ x).imp id And.left
  have hfR2 : ∀ x, (∃ b, preRowOf "R2" "Off-Road" StagingRow.allOtherBusinessUses x = .ok b) ∨
      preRowOf "R2" "Off-Road" StagingRow.allOtherBusinessUses x = .error .rateError :=
    fun x => (preRowOf_cases _ _ _ x).imp id And.left
  by_cases h1 : ∃ s ∈ staging, cleanRateField s.usedInHeavyVehicles = .error .rateError
  · obtain ⟨t, ht, hte⟩ := h1
    rw [mapE_rate_err hfR1 staging ⟨t, ht, preRowOf_err hte⟩]
  · push_neg at h1
    have hall : ∀ x ∈ staging,
        ∃ b, preRowOf "R1" "On-Road" StagingRow.usedInHeavyVehicles x = .ok b := by
      intro x hx
      rcases preRowOf_cases "R1" "On-Road" StagingRow.usedInHeavyVehicles x with ⟨p, hp⟩ | ⟨_, hc⟩
      · exact ⟨p, hp⟩
      · exact absurd hc (h1 x hx)
    obtain ⟨ys, hys⟩ := mapE_ok_of_all staging hall
    rw [hys]
    have hbad2 : cleanRateField s0.allOtherBusinessUses = .error .rateError := by
      rcases hor with h | h
      · exact absurd h (h1 s0 hs0)
      · exact h
    rw [mapE_rate_err hfR2 staging ⟨s0, hs0, preRowOf_err hbad2⟩]

theorem rateAbort_amend_w : buildCanonicalTable [badStag] = .error .rateError :=
  rateAbort_amend [badStag] ⟨badStag, by decide, Or.inl (by decide)⟩

/-- C3: when normalization and construction succeed (a valid raw document),
the canonical table has exactly twice as many rows as the document has
`Data` entries, and the staging row at index `i` yields exactly its two
canonical rows: the `R1` one (rate cleaned from `'Used in heavy vehicles'`)
at index `i` and the `R2` one (rate cleaned from `'All other business
uses'`) at index `staging.length + i`. -/
theorem buildCanonicalTable_two_per_row (doc : RawTableDocument)
    (staging : List StagingRow) (out : List RawRow)
    (hs : json_to_dataframe doc = some staging)
    (hb : buildCanonicalTable staging = .ok out) :
    out.length = 2 * totalDataEntries doc ∧
    ∀ i (hi : i < staging.length),
      ∃ (h1 : i < out.length) (h2 : staging.length + i < out.length),
        builtFrom "R1" "On-Road" StagingRow.usedInHeavyVehicles
          (staging.get ⟨i, hi⟩) (out.get ⟨i, h1⟩) ∧
        builtFrom "R2" "Off-Road" StagingRow.allOtherBusinessUses
          (staging.get ⟨i, hi⟩) (out.get ⟨staging.length + i, h2⟩) := by
  obtain ⟨o1, o2, rfl, hF1, hF2⟩ := buildCanonicalTable_shape hb
  have hl1 : staging.length = o1.length := hF1.length_eq
  have hl2 : staging.length = o2.length := hF2.length_eq
  refine ⟨?_, ?_⟩
  · rw [List.length_append, ← hl1, ← hl2, ← json_length doc staging hs]
    ring
  · intro i hi
    have h1o : i < o1.length := hl1 ▸ hi
    have h2o : i < o2.length := hl2 ▸ hi
    have h1 : i < (o1 ++ o2).length := by rw [List.length_append]; omega
    have h2 : staging.length + i < (o1 ++ o2).length := by rw [List.length_append]; omega
    refine ⟨h1, h2, ?_, ?_⟩
    · rw [getAppendLeft o1 o2 i h1o h1]
      exact forall₂Get hF1 i hi h1o
    · rw [getAppendRightIdx o1 o2 (staging.length + i) i (by rw [hl1]) h2o h2]
      exact forall₂Get hF2 i hi h2o

/-- A one-table, one-entry document used to instantiate the theorems about
the canonical-table construction. -/
def exDoc : RawTableDocument :=
  ⟨some [("Table 1", ⟨some "1 July 2023 to 30 June 2024",
    some [⟨some "14.2 cents", some "13.0 cents", some "B100"⟩]⟩)]⟩

def exStaging : List StagingRow :=
  [⟨"1 July 2023 to 30 June 2024", some "14.2 cents", some "13.0 cents", some "B100"⟩]

def exOut : List RawRow :=
  [⟨.str "07/01/2023", .str "06/30/2024", some "FT6", "R1", "cents per liter",
    mkRat 71 5, some "B100", "On-Road"⟩,
   ⟨.str "07/01/2023", .str "06/30/2024", some "FT6", "R2", "cents per liter",
    mkRat 13 1, some "B100", "Off-Road"⟩]

theorem buildCanonicalTable_two_per_row_w :
    exOut.length = 2 * totalDataEntries exDoc ∧
    ∃ (h1 : 0 < exOut.length) (h2 : exStaging.length + 0 < exOut.length),
      builtFrom "R1" "On-Road" StagingRow.usedInHeavyVehicles
        (exStaging.get ⟨0, by decide⟩) (exOut.get ⟨0, h1⟩) ∧
      builtFrom "R2" "Off-Road" StagingRow.allOtherBusinessUses
        (exStaging.get ⟨0, by decide⟩) (exOut.get ⟨exStaging.length + 0, h2⟩) :=
  ⟨(buildCanonicalTable_two_per_row exDoc exStaging exOut (by decide) (by decide)).1,
   (buildCanonicalTable_two_per_row exDoc exStaging exOut (by decide) (by decide)).2
     0 (by decide)⟩

/-- C4: when `reconcile` finds no new rows, `update_rates_table` leaves the
historical file exactly as it was (no write happens at all) and reports
`"No updates at the moment"`, a message distinct from the one printed after
an append; and a staging table each of whose rows tuple-matches some
historical row yields no new rows. -/
theorem noUpdate_frame (update hist : List RawRow) :
    ((reconcile update hist).1 = [] →
      update_rates_table update hist = ("No updates at the moment", hist)) ∧
    ((∀ r ∈ update, ∃ x ∈ hist, tupleMatch r x) → (reconcile update hist).1 = []) ∧
    "No updates at the moment" ≠ "New entries appended to FTC Rates.xlsx" := by
  refine ⟨?_, ?_, by decide⟩
  · intro he
    show (if (reconcile update hist).1.isEmpty then ("No updates at the moment", hist)
          else ("New entries appended to FTC Rates.xlsx",
                (reconcile update hist).2.map serializeRow)) = ("No updates at the moment", hist)
    rw [he]
    rfl
  · intro hsub
    show (update.map normRow).filter (fun r => decide (¬ r ∈ hist.map normRow)) = []
    rw [List.filter_eq_nil_iff]
    intro r hr
    obtain ⟨a, ha, rfl⟩ := List.mem_map.mp hr
    obtain ⟨x, hx, htm⟩ := hsub a ha
    have : normRow a ∈ hist.map normRow :=
      List.mem_map.mpr ⟨x, hx, ((tupleMatch_iff a x).mp htm).symm⟩
    simp [this]

/-- The same record once with `mm/dd/yyyy` string dates and once with ISO
string dates: literal strings differ, normalized dates agree. -/
def exRowMDY : RawRow :=
  ⟨.str "07/01/2023", .str "06/30/2024", some "FT6", "R1", "cents per liter",
   mkRat 71 5, some "B100", "On-Road"⟩

def exRowISO : RawRow :=
  ⟨.str "2023-07-01", .str "2024-06-30", some "FT6", "R1", "cents per liter",
   mkRat 71 5, some "B100", "On-Road"⟩

theorem noUpdate_frame_w :
    update_rates_table [exRowMDY] [exRowISO] = ("No updates at the moment", [exRowISO]) :=
  (noUpdate_frame [exRowMDY] [exRowISO]).1 (by decide)

/-- C5: reconciliation is idempotent — once the historical file holds the
merge written by a first call (historical rows followed by that call's new
rows), a second `reconcile` of the same staging table against it finds no
new rows. -/
theorem reconcile_idem (update hist : List RawRow) :
    (reconcile update ((reconcile update hist).2.map serializeRow)).1 = [] := by
  have hser : ((reconcile update hist).2.map serializeRow).map normRow =
      (reconcile update hist).2 := by
    rw [List.map_map]
    have hid : (normRow ∘ serializeRow) = id := funext normRow_serializeRow
    rw [hid, List.map_id]
  show (update.map normRow).filter
      (fun r => decide (¬ r ∈ ((reconcile update hist).2.map serializeRow).map normRow)) = []
  rw [hser]
  rw [List.filter_eq_nil_iff]
  intro r hr
  have hmem : r ∈ (reconcile update hist).2 := by
    show r ∈ hist.map normRow ++
      (update.map normRow).filter (fun x => decide (¬ x ∈ hist.map normRow))
    by_cases hh : r ∈ hist.map normRow
    · exact List.mem_append_left _ hh
    · exact List.mem_append_right _ (List.mem_filter.mpr ⟨hr, by simpa using hh⟩)
  simp [hmem]

/-- C6 counterexample: the title `"1 Foo 2023 to 2 Bar 2024"` does not match
the spec's pattern (no English month names), yet `extract_dates` does not
return `(null, null)` — the regex shape matches and `strptime` raises an
uncaught error. -/
theorem extract_dates_cex :
    claimTitlePattern "1 Foo 2023 to 2 Bar 2024" = false ∧
    extract_dates "1 Foo 2023 to 2 Bar 2024" = .error .dateError := by
  decide

/-- C6 amended: titles with no occurrence of the regex shape give
`(null, null)` without error; titles where the regex shape matches and both
groups are valid English-month dates give the reformatted `mm/dd/yyyy` pair
(as in the spec's example); but titles where the regex shape matches while
some group is not a valid English-month date raise an uncaught error. -/
theorem extract_dates_amend (t : String) :
    (searchDatePat t.toList = none → extract_dates t = .ok (none, none)) ∧
    (∀ g1 g2, searchDatePat t.toList = some (g1, g2) →
      (∀ d1 d2, strptimeDMY g1 = some d1 → strptimeDMY g2 = some d2 →
        extract_dates t = .ok (some (formatMDY d1), some (formatMDY d2))) ∧
      ((strptimeDMY g1 = none ∨ strptimeDMY g2 = none) →
        extract_dates t = .error .dateError)) ∧
    extract_dates "1 July 2023 to 30 June 2024" =
      .ok (some "07/01/2023", some "06/30/2024") := by
  refine ⟨?_, ?_, by decide⟩
  · intro h
    unfold extract_dates
    rw [h]
  · intro g1 g2 hg
    constructor
    · intro d1 d2 h1 h2
      unfold extract_dates
      rw [hg]
      dsimp only
      rw [h1, h2]
    · intro hor
      unfold extract_dates
      rw [hg]
      dsimp only
      cases hA : strptimeDMY g1 with
      | none =>
        cases hB : strptimeDMY g2 with
        | none => rfl
        | some d => rfl
      | some d1 =>
        cases hB : strptimeDMY g2 with
        | none => rfl
        | some d2 =>
          rcases hor with h | h
          · rw [hA] at h; cases h
          · rw [hB] at h; cases h

theorem extract_dates_amend_w : extract_dates "no date here" = .ok (none, none) :=
  (extract_dates_amend "no date here").1 (by decide)

/-- C7 counterexample: in `"15.5\tcents/L"` the token before the first
whitespace is `"15.5"`, which is numeric, yet `clean_rate` fails — the
source splits on the space character only, and `float("15.5\tcents/L")`
raises. -/
theorem clean_rate_cex :
    clean_rate "15.5\tcents/L" = .error .rateError ∧
    leadingWsToken "15.5\tcents/L" = "15.5" ∧
    pyFloat? "15.5" = some (mkRat 31 2) := by
  decide

/-- C7 amended: `clean_rate` splits on the first space character (not
general whitespace) and parses that leading field as a Python float
(so `clean_rate("15.5 cents/L") = 15.5`); it fails with the rate parse
error exactly when that leading field is not numeric. -/
theorem clean_rate_amend (s : String) :
    (∀ q, pyFloat? (firstSpaceToken s) = some q → clean_rate s = .ok q) ∧
    (pyFloat? (firstSpaceToken s) = none → clean_rate s = .error .rateError) ∧
    clean_rate "15.5 cents/L" = .ok (mkRat 31 2) := by
  refine ⟨?_, ?_, by decide⟩
  · intro q h
    unfold clean_rate
    rw [h]
  · intro h
    unfold clean_rate
    rw [h]

theorem clean_rate_amend_w : clean_rate "abc" = .error .rateError :=
  (clean_rate_amend "abc").2.1 (by decide)

/-- C8: when the top-level key `'Rates for fuel acquired'` is absent,
normalization fails (the schema-error path: `json_to_dataframe` yields no
frame) and the run ends before reconciliation — `update_rates_table` is
never invoked and the historical file is left unchanged. -/
theorem schemaError_abort (doc : RawTableDocument) (hist : List RawRow)
    (hk : doc.ratesForFuelAcquired = none) :
    json_to_dataframe doc = none ∧ runPipeline doc hist = (false, hist) := by
  have hjson : json_to_dataframe doc = none := by
    unfold json_to_dataframe
    rw [hk]
  refine ⟨hjson, ?_⟩
  unfold runPipeline
  rw [hjson]

theorem schemaError_abort_w :
    json_to_dataframe ⟨none⟩ = none ∧
    runPipeline ⟨none⟩ [exRowISO] = (false, [exRowISO]) :=
  schemaError_abort ⟨none⟩ [exRowISO] rfl

/-- The staging row of the C9 counterexample: the regex shape matches its
title but `Smarch` is not an English month, and both rates are parseable. -/
def smarchStag : StagingRow :=
  ⟨"5 Smarch 2020 to 6 Smarch 2021", some "10.0 c", some "11.0 c", some "B100"⟩

/-- C9 counterexample: a staging row whose title does not match the expected
date pattern (no English month names) on which the pipeline does abort —
the construction raises instead of emitting the row with null dates. -/
theorem nullDates_cex :
    claimTitlePattern smarchStag.title = false ∧
    buildCanonicalTable [smarchStag] = .error .dateError := by
  decide

/-- C9 amended: when the construction succeeds, a staging row whose title
contains no occurrence of the regex shape is still emitted — both its
canonical rows carry null `StartDate` and `EndDate`; but a title matching
the regex shape with an invalid date aborts the whole run (see the
counterexample). -/
theorem nullDates_amend (staging : List StagingRow) (out : List RawRow) (i : Nat)
    (hb : buildCanonicalTable staging = .ok out) (hi : i < staging.length)
    (hn : searchDatePat (staging.get ⟨i, hi⟩).title.toList = none) :
    ∃ (h1 : i < out.length) (h2 : staging.length + i < out.length),
      (out.get ⟨i, h1⟩).startDate = DateVal.null ∧
      (out.get ⟨i, h1⟩).endDate = DateVal.null ∧
      (out.get ⟨staging.length + i, h2⟩).startDate = DateVal.null ∧
      (out.get ⟨staging.length + i, h2⟩).endDate = DateVal.null := by
  have hext : extract_dates (staging.get ⟨i, hi⟩).title = .ok (none, none) := by
    unfold extract_dates
    rw [hn]
  obtain ⟨o1, o2, rfl, hF1, hF2⟩ := buildCanonicalTable_shape hb
  have hl1 : staging.length = o1.length := hF1.length_eq
  have hl2 : staging.length = o2.length := hF2.length_eq
  have h1o : i < o1.length := hl1 ▸ hi
  have h2o : i < o2.length := hl2 ▸ hi
  have h1 : i < (o1 ++ o2).length := by rw [List.length_append]; omega
  have h2 : staging.length + i < (o1 ++ o2).length := by rw [List.length_append]; omega
  refine ⟨h1, h2, ?_⟩
  rw [getAppendLeft o1 o2 i h1o h1,
      getAppendRightIdx o1 o2 (staging.length + i) i (by rw [hl1]) h2o h2]
  obtain ⟨_, _, _, _, _, _, sd1, ed1, he1, hs1, hd1⟩ := forall₂Get hF1 i hi h1o
  obtain ⟨_, _, _, _, _, _, sd2, ed2, he2, hs2, hd2⟩ := forall₂Get hF2 i hi h2o
  rw [hext] at he1 he2
  cases he1
  cases he2
  exact ⟨hs1, hd1, hs2, hd2⟩

/-- The C9 witness data: a title with no date shape at all, parseable
rates. -/
def nodateStag : StagingRow := ⟨"current rates", some "10.0 c", some "11.0 c", some "B100"⟩

def nodateOut : List RawRow :=
  [⟨.null, .null, some "FT6", "R1", "cents per liter", mkRat 10 1, some "B100", "On-Road"⟩,
   ⟨.null, .null, some "FT6", "R2", "cents per liter", mkRat 11 1, some "B100", "Off-Road"⟩]

theorem nullDates_amend_w :
    ∃ (h1 : 0 < nodateOut.length) (h2 : [nodateStag].length + 0 < nodateOut.length),
      (nodateOut.get ⟨0, h1⟩).startDate = DateVal.null ∧
      (nodateOut.get ⟨0, h1⟩).endDate = DateVal.null ∧
      (nodateOut.get ⟨[nodateStag].length + 0, h2⟩).startDate = DateVal.null ∧
      (nodateOut.get ⟨[nodateStag].length + 0, h2⟩).endDate = DateVal.null :=
  nullDates_amend [nodateStag] nodateOut 0 (by decide) (by decide) (by decide)

/-- C10: the canonical table is the `R1`-annotated copy of the staging table
followed by the `R2`-annotated copy — every On-Road row precedes every
Off-Road row, and within each road group the rows correspond to the staging
rows in their original order. -/
theorem roadVariant_order (staging : List StagingRow) (out : List RawRow)
    (hb : buildCanonicalTable staging = .ok out) :
    ∃ o1 o2, out = o1 ++ o2 ∧
      List.Forall₂ (builtFrom "R1" "On-Road" StagingRow.usedInHeavyVehicles) staging o1 ∧
      List.Forall₂ (builtFrom "R2" "Off-Road" StagingRow.allOtherBusinessUses) staging o2 :=
  buildCanonicalTable_shape hb

theorem roadVariant_order_w :
    ∃ o1 o2, exOut = o1 ++ o2 ∧
      List.Forall₂ (builtFrom "R1" "On-Road" StagingRow.usedInHeavyVehicles) exStaging o1 ∧
      List.Forall₂ (builtFrom "R2" "Off-Road" StagingRow.allOtherBusinessUses) exStaging o2 :=
  roadVariant_order exStaging exOut (by decide)
